import Mathlib

/-!
Verification development for the `conditions` package: a boolean-condition
language with a scanner, a precedence-climbing parser and a tree-walking
evaluator.  The definitions below are a shallow embedding of the Go source
(`evaluator.go` modern generation: named-binding `Evaluate`, extended operator
set, bracket-variable parser).  Go machine floats carry only literal values
here (no arithmetic is ever performed on them, only comparison), so numbers
are embedded as rationals.  Functions returning Go `(value, error)` pairs are
embedded as explicit pair-like result types; a possible nil pointer in a
returned `*BooleanLiteral` is an `Option`, and a runtime panic (nil
dereference, failed type assertion) is a distinguished `crash` outcome.
-/

namespace Conditions

/-- Lexical tokens, from `token.go` (legacy file in the repo) extended with the
tokens the modern parser in `evaluator.go` emits (XOR, NAND, IN, NOT IN,
regex and set operators, ARRAY); the extended enumeration itself is not under
`src/` and follows the spec token model of section 3. -/
inductive Tok where
  | ILLEGAL
  | EOF
  | IDENT
  | NUMBER
  | STRING
  | TRUE
  | FALSE
  | AND
  | OR
  | XOR
  | NAND
  | EQ
  | NEQ
  | LT
  | LTE
  | GT
  | GTE
  | IN
  | NOTIN
  | EREG
  | NEREG
  | INTERSECTS
  | HAS
  | LPAREN
  | RPAREN
  | ARRAY
deriving DecidableEq, Repr

/-- Modelled from the spec: operator precedence of the modern token set
(section 3: OR=1, AND/XOR/NAND=2, comparisons/set-ops/regex-ops=3; 0 for
non-operators).  The legacy `token.go` in `src/` agrees on OR/AND and the
comparison operators; the modern `token.go` defining the extended cases is
not under `src/`. -/
def Tok.Precedence : Tok → Nat
  | .OR => 1
  | .AND | .XOR | .NAND => 2
  | .EQ | .NEQ | .LT | .LTE | .GT | .GTE
  | .IN | .NOTIN | .EREG | .NEREG | .INTERSECTS | .HAS => 3
  | _ => 0

/-- Modelled from the spec: `isOperator` of the modern token set (the binary
operator tokens dispatched by `applyOperator` in `evaluator.go`); the legacy
`token.go` in `src/` defines the same predicate for its smaller range. -/
def Tok.isOperator : Tok → Bool
  | .AND | .OR | .XOR | .NAND
  | .EQ | .NEQ | .LT | .LTE | .GT | .GTE
  | .IN | .NOTIN | .EREG | .NEREG | .INTERSECTS | .HAS => true
  | _ => false

/-- AST nodes.  The node kinds are those used throughout `evaluator.go`
(BooleanLiteral, NumberLiteral, StringLiteral, SliceStringLiteral,
SliceNumberLiteral, VarRef, ParenExpr, BinaryExpr); in Go every `Expr`-typed
value is a nilable interface, so the nil interface value is embedded as the
extra variant `null`. -/
inductive Expr where
  | null
  | boolLit (b : Bool)
  | numLit (v : Rat)
  | strLit (s : String)
  | sliceStrLit (vs : List String)
  | sliceNumLit (vs : List Rat)
  | varRef (name : String)
  | paren (inner : Expr)
  | binary (op : Tok) (lhs rhs : Expr)
deriving DecidableEq, Repr

/-- `falseExpr` from `evaluator.go`: the shared `&BooleanLiteral{Val: false}`. -/
def falseExpr : Expr := .boolLit false

/-- Result of a Go function returning `(*BooleanLiteral, error)`.
`val = none` embeds a nil pointer result; `crash` embeds a runtime panic. -/
inductive BRes where
  | ret (val : Option Bool) (err : Option String)
  | crash
deriving DecidableEq, Repr

/-- `getBoolean` from `evaluator.go`: type assertion to `*BooleanLiteral`.
Go formats the offending operand into the message with `%v`; the formatted
fragment is elided here. -/
def getBoolean : Expr → Except String Bool
  | .boolLit b => .ok b
  | _ => .error "Literal is not a boolean"

/-- `getString` from `evaluator.go`: type assertion to `*StringLiteral`. -/
def getString : Expr → Except String String
  | .strLit s => .ok s
  | _ => .error "Literal is not a string"

/-- `getNumber` from `evaluator.go`: type assertion to `*NumberLiteral`. -/
def getNumber : Expr → Except String Rat
  | .numLit v => .ok v
  | _ => .error "Literal is not a number"

/-- `getSliceString` from `evaluator.go`: type assertion to
`*SliceStringLiteral`. -/
def getSliceString : Expr → Except String (List String)
  | .sliceStrLit vs => .ok vs
  | _ => .error "Literal is not a slice of string"

/-- `getSliceNumber` from `evaluator.go`: type assertion to
`*SliceNumberLiteral`. -/
def getSliceNumber : Expr → Except String (List Rat)
  | .sliceNumLit vs => .ok vs
  | _ => .error "Literal is not a slice of float64"

/-- `applyAND` from `evaluator.go`. -/
def applyAND (l r : Expr) : BRes :=
  match getBoolean l with
  | .error e => .ret none (some e)
  | .ok a =>
    match getBoolean r with
    | .error e => .ret none (some e)
    | .ok b => .ret (some (a && b)) none

/-- `applyOR` from `evaluator.go`. -/
def applyOR (l r : Expr) : BRes :=
  match getBoolean l with
  | .error e => .ret none (some e)
  | .ok a =>
    match getBoolean r with
    | .error e => .ret none (some e)
    | .ok b => .ret (some (a || b)) none

/-- `applyXOR` from `evaluator.go`. -/
def applyXOR (l r : Expr) : BRes :=
  match getBoolean l with
  | .error e => .ret none (some e)
  | .ok a =>
    match getBoolean r with
    | .error e => .ret none (some e)
    | .ok b => .ret (some (a != b)) none

/-- `applyNAND` from `evaluator.go`. -/
def applyNAND (l r : Expr) : BRes :=
  match getBoolean l with
  | .error e => .ret none (some e)
  | .ok a =>
    match getBoolean r with
    | .error e => .ret none (some e)
    | .ok b => .ret (some (!(a && b))) none

/-- `applyEQ` from `evaluator.go`: try string, then number, then boolean on
the LEFT operand; a successful left probe with a failing right probe of the
same kind is an error (the returned value is the non-nil `falseExpr`); if the
left operand is none of the three kinds the result is `false` with nil
error. -/
def applyEQ (l r : Expr) : BRes :=
  match getString l with
  | .ok as =>
    match getString r with
    | .error _ => .ret (some false) (some "Cannot compare string with non-string")
    | .ok bs => .ret (some (as == bs)) none
  | .error _ =>
  match getNumber l with
  | .ok an =>
    match getNumber r with
    | .error _ => .ret (some false) (some "Cannot compare number with non-number")
    | .ok bn => .ret (some (an == bn)) none
  | .error _ =>
  match getBoolean l with
  | .ok ab =>
    match getBoolean r with
    | .error _ => .ret (some false) (some "Cannot compare boolean with non-boolean")
    | .ok bb => .ret (some (ab == bb)) none
  | .error _ => .ret (some false) none

/-- `applyNQ` from `evaluator.go`: same probing order as `applyEQ`; note the
final fallthrough also returns `false` (not `true`) with nil error. -/
def applyNQ (l r : Expr) : BRes :=
  match getString l with
  | .ok as =>
    match getString r with
    | .error _ => .ret (some false) (some "Cannot compare string with non-string")
    | .ok bs => .ret (some (as != bs)) none
  | .error _ =>
  match getNumber l with
  | .ok an =>
    match getNumber r with
    | .error _ => .ret (some false) (some "Cannot compare number with non-number")
    | .ok bn => .ret (some (an != bn)) none
  | .error _ =>
  match getBoolean l with
  | .ok ab =>
    match getBoolean r with
    | .error _ => .ret (some false) (some "Cannot compare boolean with non-boolean")
    | .ok bb => .ret (some (ab != bb)) none
  | .error _ => .ret (some false) none

/-- `applyGT` from `evaluator.go`. -/
def applyGT (l r : Expr) : BRes :=
  match getNumber l with
  | .error e => .ret none (some e)
  | .ok a =>
    match getNumber r with
    | .error e => .ret none (some e)
    | .ok b => .ret (some (decide (a > b))) none

/-- `applyGTE` from `evaluator.go`. -/
def applyGTE (l r : Expr) : BRes :=
  match getNumber l with
  | .error e => .ret none (some e)
  | .ok a =>
    match getNumber r with
    | .error e => .ret none (some e)
    | .ok b => .ret (some (decide (a >= b))) none

/-- `applyLT` from `evaluator.go`. -/
def applyLT (l r : Expr) : BRes :=
  match getNumber l with
  | .error e => .ret none (some e)
  | .ok a =>
    match getNumber r with
    | .error e => .ret none (some e)
    | .ok b => .ret (some (decide (a < b))) none

/-- `applyLTE` from `evaluator.go`; unlike GT/GTE/LT it returns the non-nil
`falseExpr` value alongside an operand error. -/
def applyLTE (l r : Expr) : BRes :=
  match getNumber l with
  | .error e => .ret (some false) (some e)
  | .ok a =>
    match getNumber r with
    | .error e => .ret (some false) (some e)
    | .ok b => .ret (some (decide (a <= b))) none

/-- The membership loop of `applyIN`: `found` starts false and is set when an
element equals the probe (no early exit in the source); Go `==` on strings
and on float64 values is exact value equality. -/
def foundIn {α : Type} [DecidableEq α] (a : α) (b : List α) : Bool :=
  b.foldl (fun found e => found || decide (a = e)) false

/-- `applyIN` from `evaluator.go`: switch on the dynamic type of the left
operand; string and number elements are supported, anything else is an error
returned with a nil result pointer. -/
def applyIN (l r : Expr) : BRes :=
  match l with
  | .strLit _ =>
    match getString l with
    | .error e => .ret none (some e)
    | .ok a =>
      match getSliceString r with
      | .error e => .ret none (some e)
      | .ok b => .ret (some (foundIn a b)) none
  | .numLit _ =>
    match getNumber l with
    | .error e => .ret none (some e)
    | .ok a =>
      match getSliceNumber r with
      | .error e => .ret none (some e)
      | .ok b => .ret (some (foundIn a b)) none
  | _ => .ret none (some "Can not evaluate Literal of unknow type")

/-- `applyNOTIN` from `evaluator.go`: negates `result.Val` of `applyIN`
without checking the error first; when `applyIN` returned a nil pointer with
an error this dereferences nil and panics. -/
def applyNOTIN (l r : Expr) : BRes :=
  match applyIN l r with
  | .ret none _ => .crash
  | .ret (some v) err => .ret (some (!v)) err
  | .crash => .crash

/-- `applyEREG` from `evaluator.go`.  `regexp.MatchString` is external to the
repository; the evaluator is parameterized by a match oracle `re` taking the
pattern then the subject and returning `(matched, error)`. -/
def applyEREG (re : String → String → Bool × Option String) (l r : Expr) : BRes :=
  match getString l with
  | .error e => .ret none (some e)
  | .ok a =>
    match getString r with
    | .error e => .ret none (some e)
    | .ok b =>
      let m := re b a
      .ret (some m.1) m.2

/-- `applyNEREG` from `evaluator.go`: negates `result.Val` of `applyEREG`
without checking the error first; when `applyEREG` returned a nil pointer
with an error this dereferences nil and panics. -/
def applyNEREG (re : String → String → Bool × Option String) (l r : Expr) : BRes :=
  match applyEREG re l r with
  | .ret none _ => .crash
  | .ret (some v) err => .ret (some (!v)) err
  | .crash => .crash

/-- `applyINTERSECTS` from `evaluator.go` (naive nested scan with early
exit; the early exit is observationally the same as full scanning). -/
def applyINTERSECTS (l r : Expr) : BRes :=
  match getSliceString l with
  | .error e =>
    .ret (some false) (some ("left operand of INTERSECTS operator must have string slice type: " ++ e))
  | .ok left =>
    match getSliceString r with
    | .error e =>
      .ret (some false) (some ("right operand of INTERSECTS operator must have string slice type: " ++ e))
    | .ok right =>
      .ret (some (left.any (fun v => right.any (fun w => v == w)))) none

/-- `applyHAS` from `evaluator.go`. -/
def applyHAS (l r : Expr) : BRes :=
  match getSliceString l with
  | .error e =>
    .ret (some false) (some ("left operand of HAS operator must have string slice type: " ++ e))
  | .ok left =>
    match getString r with
    | .error e =>
      .ret (some false) (some ("right operand of HAS operator must be a string: " ++ e))
    | .ok right =>
      .ret (some (left.any (fun v => v == right))) none

/-- `applyOperator` from `evaluator.go`: dispatch on the operator token. -/
def applyOperator (re : String → String → Bool × Option String)
    (op : Tok) (l r : Expr) : BRes :=
  match op with
  | .AND => applyAND l r
  | .OR => applyOR l r
  | .EQ => applyEQ l r
  | .NEQ => applyNQ l r
  | .GT => applyGT l r
  | .GTE => applyGTE l r
  | .LT => applyLT l r
  | .LTE => applyLTE l r
  | .XOR => applyXOR l r
  | .NAND => applyNAND l r
  | .IN => applyIN l r
  | .NOTIN => applyNOTIN l r
  | .EREG => applyEREG re l r
  | .NEREG => applyNEREG re l r
  | .INTERSECTS => applyINTERSECTS l r
  | .HAS => applyHAS l r
  | _ => .ret (some false) (some "Unsupported operator")

/-- Host values a binding map can carry, mirroring the `reflect.Kind`
dispatch of `evaluateSubtree` in `evaluator.go`.  `hSliceAny` embeds
`[]interface{}` (its string elements are kept), `hSliceStr` embeds
`[]string`, and `hOther` stands for every unsupported kind. -/
inductive HostVal where
  | hInt (n : Int)
  | hInt32 (n : Int)
  | hInt64 (n : Int)
  | hFloat32 (v : Rat)
  | hFloat64 (v : Rat)
  | hStr (s : String)
  | hBool (b : Bool)
  | hSliceAny (vs : List HostVal)
  | hSliceStr (vs : List String)
  | hOther (kind : String)

/-- The string elements kept from a `[]interface{}` binding value. -/
def hostStrings : List HostVal → List String
  | [] => []
  | .hStr s :: rest => s :: hostStrings rest
  | _ :: rest => hostStrings rest

/-- A binding map, embedded as an association list looked up by name. -/
abbrev Bindings := List (String × HostVal)

/-- Result of `evaluateSubtree`, a Go `(Expr, error)` pair where the `Expr`
interface value can be a (typed) nil literal pointer, plus the panic
outcome. -/
inductive ERes where
  | ret (val : Option Expr) (err : Option String)
  | crash
deriving DecidableEq, Repr

/-- The coercion of a bound host value performed by the `VarRef` case of
`evaluateSubtree` in `evaluator.go`. -/
def coerceHost (v : HostVal) : ERes :=
  match v with
  | .hInt n => .ret (some (.numLit (n : Rat))) none
  | .hInt32 n => .ret (some (.numLit (n : Rat))) none
  | .hInt64 n => .ret (some (.numLit (n : Rat))) none
  | .hFloat32 q => .ret (some (.numLit q)) none
  | .hFloat64 q => .ret (some (.numLit q)) none
  | .hStr s => .ret (some (.strLit s)) none
  | .hBool b => .ret (some (.boolLit b)) none
  | .hSliceAny vs => .ret (some (.sliceStrLit (hostStrings vs))) none
  | .hSliceStr vs => .ret (some (.sliceStrLit vs)) none
  | .hOther _ => .ret (some falseExpr) (some "Unsupported argument type")

/-- `evaluateSubtree` from `evaluator.go` (modern named-binding generation):
nil check, transparent parentheses, recursive binary reduction, variable
resolution by name.  A nil value is only ever returned together with a
non-nil error, and every caller checks the error before touching the value;
the `val = none` cases below after a nil error check are therefore
unreachable and embedded as `crash` (Go would dereference the nil literal
there). -/
def evaluateSubtree (re : String → String → Bool × Option String) :
    Expr → Bindings → ERes
  | .null, _ => .ret (some falseExpr) (some "Provided expression is nil")
  | .paren inner, args => evaluateSubtree re inner args
  | .binary op lhs rhs, args =>
    match evaluateSubtree re lhs args with
    | .crash => .crash
    | .ret _ (some msg) => .ret (some falseExpr) (some msg)
    | .ret lv none =>
      match evaluateSubtree re rhs args with
      | .crash => .crash
      | .ret _ (some msg) => .ret (some falseExpr) (some msg)
      | .ret rv none =>
        match lv, rv with
        | some l, some r =>
          match applyOperator re op l r with
          | .crash => .crash
          | .ret (some b) err => .ret (some (.boolLit b)) err
          | .ret none err => .ret none err
        | _, _ => .crash
  | .varRef name, args =>
    match List.lookup name args with
    | none => .ret (some falseExpr) (some ("argument: " ++ name ++ " not found"))
    | some v => coerceHost v
  | other, _ => .ret (some other) none

/-- Result of the top-level `Evaluate`: a Go `(bool, error)` pair or a
panic. -/
inductive GoOut where
  | ret (b : Bool) (err : Option String)
  | crash
deriving DecidableEq, Repr

/-- `Evaluate` from `evaluator.go`: nil check, reduce, then require a boolean
literal at the root.  As in `evaluateSubtree`, a nil value with nil error is
unreachable and embedded as `crash`. -/
def Evaluate (re : String → String → Bool × Option String)
    (expr : Expr) (args : Bindings) : GoOut :=
  match expr with
  | .null => .ret false (some "Provided expression is nil")
  | e =>
    match evaluateSubtree re e args with
    | .crash => .crash
    | .ret _ (some msg) => .ret false (some msg)
    | .ret (some (.boolLit b)) none => .ret b none
    | .ret (some _) none => .ret false (some "Unexpected result of the root expression")
    | .ret none none => .crash

/-- A trivial match oracle used to instantiate the regex parameter in
theorems whose statements do not depend on regex matching. -/
def re0 : String → String → Bool × Option String := fun _ _ => (false, none)

/-!
Scanner and parser, from the parser half of `evaluator.go` (the modern
generation: `NewParser`, `scan`, `scanWithMapping`, `scanArg`, `scanArray`,
`parseExpr`, `parseUnaryExpr`).  The underlying `text/scanner` with mode
`ScanIdents | ScanFloats | ScanStrings` is embedded as a tokenizer producing
raw tokens: identifiers, ints, floats, double-quoted strings, and single
characters for everything else.  The embedding covers the ASCII fragment the
repository exercises; exponent-form floats and non-ASCII identifier letters
are not modelled (no input below uses them).
-/

/-- Raw tokens of the underlying `text/scanner`.  `rEOF` is the scanner EOF
value; a string token text keeps its surrounding double quotes, as Go
`TokenText` does. -/
inductive RawTok where
  | rEOF
  | rIdent (s : String)
  | rInt (s : String)
  | rFloat (s : String)
  | rStr (s : String)
  | rCh (c : Char)
deriving DecidableEq, Repr

/-- ASCII uppercase of one character; `strings.ToUpper` acts ASCII-wise on
every input occurring here. -/
def upChar (c : Char) : Char :=
  if c.isLower then Char.ofNat (c.toNat - 32) else c

/-- `strings.ToUpper`, embedded character-wise. -/
def upperStr (s : String) : String := String.mk (s.data.map upChar)

/-- `strings.HasPrefix`. -/
def hasPre (p s : String) : Bool := p.data.isPrefixOf s.data

/-- `TokenText` of a raw token. -/
def rawText : RawTok → String
  | .rEOF => ""
  | .rIdent s => s
  | .rInt s => s
  | .rFloat s => s
  | .rStr s => s
  | .rCh c => String.singleton c

/-- Characters allowed to start an identifier (`text/scanner` default
`isIdentRune` at position 0, ASCII fragment). -/
def isIdentStart (c : Char) : Bool := c.isAlpha || c = '_'

/-- Characters allowed inside an identifier. -/
def isIdentChar (c : Char) : Bool := c.isAlphanum || c = '_'

/-- Body of a double-quoted string: characters up to the closing quote, with
backslash escapes consumed verbatim; the returned list includes the closing
quote.  At end of input the partial body is returned (the Go scanner reports
the error separately and still yields the token). -/
def strBody : List Char → List Char × List Char
  | [] => ([], [])
  | '"' :: rest => (['"'], rest)
  | '\\' :: c :: rest =>
    match strBody rest with
    | (b, r) => ('\\' :: c :: b, r)
  | c :: rest =>
    match strBody rest with
    | (b, r) => (c :: b, r)

/-- The `text/scanner` tokenizer with `ScanIdents | ScanFloats | ScanStrings`:
whitespace is skipped, identifiers and numbers are maximal munches, a number
with a decimal point is a float, a double-quoted string is one token, and any
other character is returned as itself.  The fuel argument exceeds the input
length at every call, and every step consumes at least one character, so the
fuel-out branch is unreachable. -/
def tokenize : Nat → List Char → List RawTok
  | 0, _ => []
  | fuel + 1, cs =>
    match cs with
    | [] => []
    | c :: cs2 =>
      if c.isWhitespace then tokenize fuel cs2
      else if isIdentStart c then
        .rIdent (String.mk (c :: cs2.takeWhile isIdentChar)) ::
          tokenize fuel (cs2.dropWhile isIdentChar)
      else if c.isDigit then
        let ip := cs2.takeWhile Char.isDigit
        let r1 := cs2.dropWhile Char.isDigit
        match r1 with
        | '.' :: r2 =>
          let fp := r2.takeWhile Char.isDigit
          .rFloat (String.mk ((c :: ip) ++ '.' :: fp)) ::
            tokenize fuel (r2.dropWhile Char.isDigit)
        | _ => .rInt (String.mk (c :: ip)) :: tokenize fuel r1
      else if c = '"' then
        match strBody cs2 with
        | (b, r) => .rStr (String.mk ('"' :: b)) :: tokenize fuel r
      else
        .rCh c :: tokenize fuel cs2

/-- Parser state: the raw tokens not yet read, the most recently read token
(the `buf` of the Go `Parser`), and whether that token has been unscanned. -/
structure PState where
  rest : List RawTok
  prev : RawTok
  buffered : Bool
deriving DecidableEq, Repr

/-- `scan` from `evaluator.go`: return the buffered token if one was
unscanned, otherwise read the next token (EOF forever at end of input). -/
def pscan : PState → RawTok × PState
  | ⟨rest, prev, true⟩ => (prev, ⟨rest, prev, false⟩)
  | ⟨[], _, false⟩ => (.rEOF, ⟨[], .rEOF, false⟩)
  | ⟨t :: ts, _, false⟩ => (t, ⟨ts, t, false⟩)

/-- `unscan` from `evaluator.go`. -/
def unscan (st : PState) : PState := { st with buffered := true }

/-- Result of `scanArg`: the Go `(rune, string, error)` triple, split by
whether the error is nil. -/
inductive ArgRes where
  | done (tt : String) (st : PState)
  | fail (tt : String) (st : PState)
deriving Repr

/-- `scanArg` from `evaluator.go`: read a bracketed variable reference,
normalizing chained brackets to a dotted path and keeping a leading `@`.
Every loop iteration consumes at least one raw token, so the fuel supplied at
the call site (more than twice the remaining token count) cannot run out; the
fuel-out branch mirrors the error return. -/
def scanArg : Nat → PState → String → String → ArgRes
  | 0, st, _, tt => .fail tt st
  | fuel + 1, st, sep, tt =>
    match pscan st with
    | (t, st1) =>
      let tt1 := tt ++ sep ++ rawText t
      if t = .rCh '@' then scanArg fuel st1 sep tt1
      else
        match pscan st1 with
        | (t2, st2) =>
          if t2 = .rCh ']' then
            match pscan st2 with
            | (ti, st3) =>
              if ti = .rCh '[' then scanArg fuel st3 "." tt1
              else .done tt1 (unscan st3)
          else .fail tt1 st2

/-- Result of `scanArray`: the accumulated literal text, or divergence (the
Go loop never checks for EOF and spins forever at end of input). -/
inductive ArrRes where
  | done (tt : String) (st : PState)
  | diverge
deriving Repr

/-- `scanArray` from `evaluator.go`: concatenate raw token texts until a
closing bracket.  Reading EOF is detected as divergence, since the Go loop
would then scan EOF forever; the fuel-out branch is unreachable for the fuel
supplied at the call site. -/
def scanArray : Nat → PState → String → ArrRes
  | 0, _, _ => .diverge
  | fuel + 1, st, tt =>
    match pscan st with
    | (t, st1) =>
      if t = .rCh ']' then .done tt st1
      else if t = .rEOF then .diverge
      else scanArray fuel st1 (tt ++ rawText t)

/-- The `/…/` raw-pattern loop of `scanWithMapping`: concatenate token texts
until a `/` character token, which is included.  The Go loop never checks for
EOF, so reading EOF is divergence. -/
def scanSlash : Nat → PState → String → Option (String × PState)
  | 0, _, _ => none
  | fuel + 1, st, acc =>
    match pscan st with
    | (t, st1) =>
      if t = .rCh '/' then some (acc ++ "/", st1)
      else if t = .rEOF then none
      else scanSlash fuel st1 (acc ++ rawText t)

/-- Result of `scanWithMapping`: a mapped token with its text and the next
state, or divergence inherited from `scanArray` / the slash-string loop. -/
inductive SWRes where
  | tok (t : Tok) (tt : String) (st : PState)
  | diverge
deriving DecidableEq, Repr

/-- The `scanner.Ident` arm of `scanWithMapping`: case-insensitive keywords,
`NOT` fused with a following `IN`, and the legacy whitelist of bare
identifiers starting with `C` or `P` (checked on the uppercased text). -/
def identTok (s : String) (st : PState) : SWRes :=
  let u := upperStr s
  if u = "AND" then .tok .AND s st
  else if u = "OR" then .tok .OR s st
  else if u = "XOR" then .tok .XOR s st
  else if u = "NAND" then .tok .NAND s st
  else if u = "IN" then .tok .IN s st
  else if u = "INTERSECTS" then .tok .INTERSECTS s st
  else if u = "HAS" then .tok .HAS s st
  else if u = "NOT" then
    match pscan st with
    | (t2, st2) =>
      if upperStr (rawText t2) = "IN" then .tok .NOTIN "NOT IN" st2
      else .tok .ILLEGAL s (unscan st2)
  else if u = "TRUE" then .tok .TRUE s st
  else if u = "FALSE" then .tok .FALSE s st
  else if hasPre "C" u || hasPre "P" u then .tok .IDENT s st
  else .tok .ILLEGAL s st

/-- `scanWithMapping` from `evaluator.go`: map raw scanner tokens to the
language tokens, folding signed numbers, `$`-indexed identifiers, bracketed
references and array literals, the two-character operators, `/…/` patterns,
and keywords.  An unrecognized character falls through with the zero token
value ILLEGAL and its text. -/
def scanWithMapping (st0 : PState) : SWRes :=
  match pscan st0 with
  | (t, st) =>
    match t with
    | .rEOF => .tok .EOF "" st
    | .rCh '(' => .tok .LPAREN "(" st
    | .rCh ')' => .tok .RPAREN ")" st
    | .rCh '-' =>
      match pscan st with
      | (.rFloat s, st2) => .tok .NUMBER ("-" ++ s) st2
      | (.rInt s, st2) => .tok .NUMBER ("-" ++ s) st2
      | (t2, st2) => .tok .ILLEGAL (rawText t2) st2
    | .rInt s => .tok .NUMBER s st
    | .rFloat s => .tok .NUMBER s st
    | .rCh '$' =>
      match pscan st with
      | (.rFloat s, st2) => .tok .IDENT ("$" ++ s) st2
      | (.rInt s, st2) => .tok .IDENT ("$" ++ s) st2
      | (t2, st2) => .tok .ILLEGAL (rawText t2) st2
    | .rCh '[' =>
      match scanArg (2 * st.rest.length + 4) st "" "" with
      | .done tt st2 => .tok .IDENT tt st2
      | .fail tt st2 =>
        match scanArray (2 * st2.rest.length + 4) (unscan st2) tt with
        | .done tt2 st3 => .tok .ARRAY tt2 st3
        | .diverge => .diverge
    | .rCh '!' =>
      match pscan st with
      | (t2, st2) =>
        if t2 = .rCh '=' then .tok .NEQ "!=" st2
        else if t2 = .rCh '~' then .tok .NEREG "!~" st2
        else .tok .ILLEGAL (rawText t2) st2
    | .rCh '>' =>
      match pscan st with
      | (t2, st2) =>
        if t2 = .rCh '=' then .tok .GTE ">=" st2
        else .tok .GT ">" (unscan st2)
    | .rCh '<' =>
      match pscan st with
      | (t2, st2) =>
        if t2 = .rCh '=' then .tok .LTE "<=" st2
        else .tok .LT "<" (unscan st2)
    | .rCh '=' =>
      match pscan st with
      | (t2, st2) =>
        if t2 = .rCh '=' then .tok .EQ "==" st2
        else if t2 = .rCh '~' then .tok .EREG "=~" st2
        else .tok .ILLEGAL (rawText t2) st2
    | .rCh '/' =>
      match scanSlash (2 * st.rest.length + 4) st "/" with
      | some (tt, st2) => .tok .STRING tt st2
      | none => .diverge
    | .rStr s => .tok .STRING s st
    | .rIdent s => identTok s st
    | .rCh c => .tok .ILLEGAL (String.singleton c) st

/-!
The ARRAY arm of `parseUnaryExpr` decodes the literal text with
`encoding/json` into `[]interface{}`.  `json.Unmarshal` validates the whole
input before decoding, so on invalid JSON the destination slice stays empty.
The decoder below covers flat arrays of JSON scalars (strings with the common
escapes, numbers without exponents, `true`, `false`, `null`); nested
composites and exotic escapes are rejected as invalid (no input in this
development produces them).
-/

/-- JSON scalar values as decoded into `interface{}`: every JSON number
becomes a float64. -/
inductive JVal where
  | jstr (s : String)
  | jnum (v : Rat)
  | jbool (b : Bool)
  | jnull
deriving DecidableEq, Repr

/-- Skip JSON whitespace. -/
def jskipWs (cs : List Char) : List Char :=
  cs.dropWhile (fun c => c = ' ' || c = '\t' || c = '\n' || c = '\r')

/-- Body of a JSON string after the opening quote; decodes the common
escapes. -/
def jstrBody : List Char → Option (String × List Char)
  | [] => none
  | '"' :: rest => some ("", rest)
  | '\\' :: e :: rest =>
    let d? : Option Char :=
      if e = '"' then some '"'
      else if e = '\\' then some '\\'
      else if e = '/' then some '/'
      else if e = 'n' then some '\n'
      else if e = 't' then some '\t'
      else if e = 'r' then some '\r'
      else none
    match d? with
    | none => none
    | some d =>
      match jstrBody rest with
      | none => none
      | some (s, r) => some (String.singleton d ++ s, r)
  | c :: rest =>
    match jstrBody rest with
    | none => none
    | some (s, r) => some (String.singleton c ++ s, r)

/-- Decimal digits to a natural number. -/
def digitsToNat (ds : List Char) : Nat :=
  ds.foldl (fun acc c => 10 * acc + (c.toNat - '0'.toNat)) 0

/-- A JSON number: optional minus, integer part without leading zeros,
optional fraction. -/
def jnumParse (cs : List Char) : Option (Rat × List Char) :=
  let signed := match cs with
    | '-' :: r => (true, r)
    | _ => (false, cs)
  match signed with
  | (neg, cs1) =>
    match cs1 with
    | [] => none
    | d :: _ =>
      if !d.isDigit then none
      else
        let ip := cs1.takeWhile Char.isDigit
        let r1 := cs1.dropWhile Char.isDigit
        if 1 < ip.length && ip.head? = some '0' then none
        else
          let sgn : Rat := if neg then -1 else 1
          match r1 with
          | '.' :: r2 =>
            let fp := r2.takeWhile Char.isDigit
            if fp.isEmpty then none
            else
              let r3 := r2.dropWhile Char.isDigit
              some (sgn * ((digitsToNat (ip ++ fp) : Rat) / ((10 : Rat) ^ fp.length)), r3)
          | _ => some (sgn * (digitsToNat ip : Rat), r1)

/-- One JSON scalar value. -/
def jval (cs : List Char) : Option (JVal × List Char) :=
  match cs with
  | '"' :: rest =>
    match jstrBody rest with
    | none => none
    | some (s, r) => some (.jstr s, r)
  | 't' :: 'r' :: 'u' :: 'e' :: r => some (.jbool true, r)
  | 'f' :: 'a' :: 'l' :: 's' :: 'e' :: r => some (.jbool false, r)
  | 'n' :: 'u' :: 'l' :: 'l' :: r => some (.jnull, r)
  | _ =>
    match jnumParse cs with
    | none => none
    | some (v, r) => some (.jnum v, r)

/-- Comma-separated JSON scalars up to the closing bracket.  Each iteration
consumes at least one character, so the fuel at the call site (the input
length plus one) cannot run out. -/
def jitems : Nat → List Char → Option (List JVal × List Char)
  | 0, _ => none
  | fuel + 1, cs =>
    match jval (jskipWs cs) with
    | none => none
    | some (v, r) =>
      match jskipWs r with
      | ',' :: r2 =>
        match jitems fuel r2 with
        | none => none
        | some (vs, r3) => some (v :: vs, r3)
      | ']' :: r2 => some ([v], r2)
      | _ => none

/-- `json.Unmarshal` of a complete input into `[]interface{}`, restricted to
flat scalar arrays.  `none` means the decode failed and the destination
stayed empty. -/
def jsonDecodeList (s : String) : Option (List JVal) :=
  match jskipWs s.toList with
  | '[' :: r =>
    match jskipWs r with
    | ']' :: r2 => if jskipWs r2 = [] then some [] else none
    | _ =>
      match jitems (s.length + 1) r with
      | none => none
      | some (vs, r3) => if jskipWs r3 = [] then some vs else none
  | _ => none

/-- The `v.(string)` loop of the ARRAY arm: every element must be a string,
otherwise the type assertion panics. -/
def allStrings : List JVal → Option (List String)
  | [] => some []
  | .jstr s :: rest =>
    match allStrings rest with
    | none => none
    | some vs => some (s :: vs)
  | _ :: _ => none

/-- The `v.(float64)` loop of the ARRAY arm: every element must be a number,
otherwise the type assertion panics. -/
def allNumbers : List JVal → Option (List Rat)
  | [] => some []
  | .jnum v :: rest =>
    match allNumbers rest with
    | none => none
    | some vs => some (v :: vs)
  | _ :: _ => none

/-- `strconv.ParseFloat` restricted to plain decimal notation (optional sign,
digits, optional fraction); the NUMBER token texts this parser builds are of
that shape. -/
def parseFloatQ (s : String) : Option Rat :=
  let signed := match s.toList with
    | '-' :: r => (some true, r)
    | '+' :: r => (some false, r)
    | cs => (some false, cs)
  match signed with
  | (_, []) => none
  | (some neg, cs) =>
    let ip := cs.takeWhile Char.isDigit
    let r1 := cs.dropWhile Char.isDigit
    let sgn : Rat := if neg then -1 else 1
    match r1 with
    | [] => if ip.isEmpty then none else some (sgn * (digitsToNat ip : Rat))
    | '.' :: r2 =>
      let fp := r2.takeWhile Char.isDigit
      if r2.dropWhile Char.isDigit = [] && !(ip.isEmpty && fp.isEmpty) then
        some (sgn * ((digitsToNat (ip ++ fp) : Rat) / ((10 : Rat) ^ fp.length)))
      else none
    | _ => none
  | (none, _) => none

/-- `lit[1 : len(lit)-1]`: strip the first and last character of a string
token text (its quotes). -/
def stripEnds (s : String) : String := String.mk ((s.data.drop 1).dropLast)

/-- Result of a parsing function: the Go `(Expr, error)` pair split by nil
error, plus a panic outcome (failed type assertion in the ARRAY arm) and
divergence inherited from the scanner loops.  The fuel-out branches of the
parser also land in `diverge`; the fuel chosen at the entry point exceeds
the total number of parser calls possible for the token stream, every call
consuming at least one token or returning. -/
inductive PRes where
  | ok (e : Expr) (st : PState)
  | err (msg : String)
  | crash
  | diverge
deriving DecidableEq, Repr

/-- The ARRAY arm of `parseUnaryExpr` in `evaluator.go`: decode
`[` + lit + `]`, reject an empty decode, then cast every element to the kind
of the first one (a failed cast is a panic). -/
def parseArrayLit (lit : String) (st : PState) : PRes :=
  match jsonDecodeList ("[" ++ lit ++ "]") with
  | none => .err "Empty Slice not castable"
  | some [] => .err "Empty Slice not castable"
  | some (v :: vs) =>
    match v with
    | .jstr _ =>
      match allStrings (v :: vs) with
      | some values => .ok (.sliceStrLit values) st
      | none => .crash
    | .jnum _ =>
      match allNumbers (v :: vs) with
      | some values => .ok (.sliceNumLit values) st
      | none => .crash
    | _ => .err "Slice of unknow type"

/-- A pending parser activation: the three mutually recursive pieces of the
parser (`parseExpr`, its operator loop, `parseUnaryExpr`), merged into one
function below so that the recursion is structural on the fuel. -/
inductive PCall where
  | expr (st : PState)
  | loop (e : Expr) (st : PState)
  | unary (st : PState)

/-- `parseExpr` / `parseUnaryExpr` from `evaluator.go`.
`expr`: one unary expression, then the operator loop.
`loop`: an ILLEGAL token is an error, a non-operator token is unscanned and
ends the expression, and each operator extends the tree, rotating the root
when the pending operator binds at least as tightly as the root operator.
`unary`: a parenthesized sub-expression closed by a mandatory RPAREN, or a
single literal / variable / array token. -/
def parseF : Nat → PCall → PRes
  | 0, _ => .diverge
  | fuel + 1, .expr st =>
    match parseF fuel (.unary st) with
    | .ok e st2 => parseF fuel (.loop e st2)
    | r => r
  | fuel + 1, .loop expr st =>
    match scanWithMapping st with
    | .diverge => .diverge
    | .tok op tx st2 =>
      if op = .ILLEGAL then .err ("ILLEGAL " ++ tx)
      else if op.isOperator = false then .ok expr (unscan st2)
      else
        match parseF fuel (.unary st2) with
        | .ok rhs st3 =>
          match expr with
          | .binary lop llhs lrhs =>
            if lop.Precedence ≤ op.Precedence then
              parseF fuel (.loop (.binary lop llhs (.binary op lrhs rhs)) st3)
            else
              parseF fuel (.loop (.binary op (.binary lop llhs lrhs) rhs) st3)
          | _ => parseF fuel (.loop (.binary op expr rhs) st3)
        | r => r
  | fuel + 1, .unary st =>
    match scanWithMapping st with
    | .diverge => .diverge
    | .tok tok lit st2 =>
      if tok = .LPAREN then
        match parseF fuel (.expr st2) with
        | .ok e st3 =>
          match scanWithMapping st3 with
          | .diverge => .diverge
          | .tok t2 _ st4 =>
            if t2 = .RPAREN then .ok (.paren e) st4
            else .err "Missing )"
        | r => r
      else
        match tok with
        | .IDENT => .ok (.varRef lit) st2
        | .STRING => .ok (.strLit (stripEnds lit)) st2
        | .NUMBER =>
          match parseFloatQ lit with
          | some v => .ok (.numLit v) st2
          | none => .err "Unable to parse number"
        | .TRUE => .ok (.boolLit true) st2
        | .FALSE => .ok (.boolLit false) st2
        | .ARRAY => parseArrayLit lit st2
        | _ => .err ("Parsing error: lit=" ++ lit)

/-- Parse outcome with the final parser state dropped, as `Parse` returns
only the `(Expr, error)` pair. -/
inductive ParseOut where
  | ok (e : Expr)
  | err (msg : String)
  | crash
  | diverge
deriving DecidableEq, Repr

/-- `NewParser` + `Parse` from `evaluator.go` on a source text. -/
def ParseString (s : String) : ParseOut :=
  let toks := tokenize (s.length + 1) s.toList
  let st : PState := ⟨toks, .rEOF, false⟩
  match parseF (4 * toks.length + 8) (.expr st) with
  | .ok e _ => .ok e
  | .err m => .err m
  | .crash => .crash
  | .diverge => .diverge

/-- Parse a text and evaluate the resulting AST (`none` when parsing did not
return an AST). -/
def evalString (re : String → String → Bool × Option String)
    (s : String) (args : Bindings) : Option GoOut :=
  match ParseString s with
  | .ok e => some (Evaluate re e args)
  | _ => none

/-- Whether a Go `(value, error)` probe returned a non-nil error. -/
def exceptErr {α β : Type} : Except α β → Bool
  | .error _ => true
  | .ok _ => false

/-- Modelled from the spec: the `Args` method of the AST nodes (the file
declaring the node types and their `Args` methods is not under `src/`).  Per
the spec data model, every `Expr` enumerates the variable names it
transitively references, in encounter order (duplicates included; `Variables`
removes them). -/
def Expr.Args : Expr → List String
  | .varRef n => [n]
  | .paren inner => inner.Args
  | .binary _ l r => l.Args ++ r.Args
  | _ => []

/-- The loop of `removeDuplicates` in `evaluator.go`: `result` accumulates
the output and `seen` is the key set of the `seen` map (a key is added
exactly when the value is appended to the result). -/
def removeDuplicatesLoop : List String → List String → List String → List String
  | [], result, _ => result
  | v :: rest, result, seen =>
    if v ∈ seen then removeDuplicatesLoop rest result seen
    else removeDuplicatesLoop rest (result ++ [v]) (seen ++ [v])

/-- `removeDuplicates` from `evaluator.go`. -/
def removeDuplicates (a : List String) : List String :=
  removeDuplicatesLoop a [] []

/-- `Variables` from `evaluator.go`. -/
def Variables (expression : Expr) : List String :=
  removeDuplicates expression.Args

/-- Reference deduplication in first-encountered order: keep each name at
its first occurrence, dropping every later duplicate. -/
def firstSeenDedup : List String → List String
  | [] => []
  | x :: xs => x :: firstSeenDedup (xs.filter (fun y => y ≠ x))
termination_by l => l.length
decreasing_by
  simp only [List.length_cons]
  exact Nat.lt_succ_of_le (List.length_filter_le _ _)

end Conditions


/-!
Theorems.  Each claim of the specification review is settled by exactly one
theorem below (with a counterexample theorem where the claim as stated fails,
and a witness theorem where a claim theorem carries hypotheses); the helper
lemmas preceding them are shared infrastructure.
-/

namespace Conditions

/-- The membership loop of `applyIN` computes list membership. -/
theorem foundIn_eq_decide {α : Type} [DecidableEq α] (a : α) (b : List α) :
    foundIn a b = decide (a ∈ b) := by
  have h : ∀ init : Bool, b.foldl (fun found e => found || decide (a = e)) init
      = (init || decide (a ∈ b)) := by
    induction b with
    | nil => intro init; simp
    | cons x xs ih =>
      intro init
      rw [List.foldl_cons, ih]
      by_cases h1 : a = x <;> by_cases h2 : a ∈ xs <;> simp [h1, h2]
  simpa [foundIn] using h false

/-- The loop of `removeDuplicates` keeps the accumulated result and dedups
the remaining input in first-seen order, skipping names already seen. -/
theorem removeDuplicatesLoop_eq (l : List String) :
    ∀ result seen, removeDuplicatesLoop l result seen
      = result ++ firstSeenDedup (l.filter (fun y => y ∉ seen)) := by
  induction l with
  | nil => intro result seen; simp [removeDuplicatesLoop, firstSeenDedup]
  | cons v rest ih =>
    intro result seen
    by_cases hv : v ∈ seen
    · simp [removeDuplicatesLoop, hv, ih, List.filter_cons]
    · simp only [removeDuplicatesLoop, hv, if_false, ih, List.filter_cons, decide_not,
        decide_False, Bool.not_false, if_true, firstSeenDedup]
      have hstep : (rest.filter (fun y => !decide (y ∈ seen ++ [v])))
          = (rest.filter (fun y => !decide (y ∈ seen))).filter (fun y => !decide (y = v)) := by
        rw [List.filter_filter]
        apply List.filter_congr
        intro y _
        by_cases h1 : y = v <;> by_cases h2 : y ∈ seen <;> simp [h1, h2]
      rw [hstep]
      simp

/-- `removeDuplicates` is exactly first-seen-order deduplication. -/
theorem removeDuplicates_eq_firstSeenDedup (a : List String) :
    removeDuplicates a = firstSeenDedup a := by
  have h := removeDuplicatesLoop_eq a [] []
  simpa [removeDuplicates] using h

/-- First-seen-order deduplication preserves membership. -/
theorem mem_firstSeenDedup (s : String) (l : List String) :
    s ∈ firstSeenDedup l ↔ s ∈ l := by
  induction l using firstSeenDedup.induct with
  | case1 => simp [firstSeenDedup]
  | case2 x xs ih =>
    rw [firstSeenDedup]
    simp only [List.mem_cons, ih, List.mem_filter]
    by_cases hs : s = x <;> simp [hs]

/-- First-seen-order deduplication yields a duplicate-free list. -/
theorem nodup_firstSeenDedup (l : List String) : (firstSeenDedup l).Nodup := by
  induction l using firstSeenDedup.induct with
  | case1 => simp [firstSeenDedup]
  | case2 x xs ih =>
    rw [firstSeenDedup]
    refine List.nodup_cons.mpr ⟨?_, ih⟩
    intro hx
    have := (mem_firstSeenDedup x _).mp hx
    simp [List.mem_filter] at this

/-- Claim C1: the claim says evaluation never crashes and that a NOT IN or
!~ node with wrongly-kinded operands yields a structured error.  On the code,
`applyNOTIN` and `applyNEREG` negate `result.Val` before checking the error;
`applyIN` and `applyEREG` return a nil result together with the kind error,
so both evaluations dereference nil and panic instead. -/
theorem evaluate_notin_nereg_crash :
    Evaluate re0 (.binary .NOTIN (.boolLit true) (.sliceStrLit ["a"])) [] = .crash ∧
    Evaluate re0 (.binary .NEREG (.boolLit true) (.strLit "a")) [] = .crash :=
  ⟨by decide, by decide⟩

/-- Claim C2, counterexample: a string operand compared with a boolean
operand is a pair with no common kind, yet both EQ and NEQ return a type
error, not the claimed silent false (and NEQ does not return true). -/
theorem eq_mismatch_errors_counterexample :
    applyEQ (.strLit "a") (.boolLit true) =
      .ret (some false) (some "Cannot compare string with non-string") ∧
    applyNQ (.strLit "a") (.boolLit true) =
      .ret (some false) (some "Cannot compare string with non-string") :=
  ⟨by decide, by decide⟩

/-- Claim C2, amended: the silent false-with-no-error fallthrough of EQ/NEQ
happens exactly when the LEFT operand probes as none of string, number,
boolean — and then NEQ also returns false, not true; when the left operand is
a string (resp. number, boolean) and the right operand is not of the same
kind, both operators return the corresponding type error. -/
theorem eq_mismatch_amended :
    (∀ l r : Expr,
      exceptErr (getString l) = true → exceptErr (getNumber l) = true →
      exceptErr (getBoolean l) = true →
      applyEQ l r = .ret (some false) none ∧ applyNQ l r = .ret (some false) none) ∧
    (∀ (s : String) (r : Expr), exceptErr (getString r) = true →
      applyEQ (.strLit s) r = .ret (some false) (some "Cannot compare string with non-string") ∧
      applyNQ (.strLit s) r = .ret (some false) (some "Cannot compare string with non-string")) ∧
    (∀ (v : Rat) (r : Expr), exceptErr (getNumber r) = true →
      applyEQ (.numLit v) r = .ret (some false) (some "Cannot compare number with non-number") ∧
      applyNQ (.numLit v) r = .ret (some false) (some "Cannot compare number with non-number")) ∧
    (∀ (b : Bool) (r : Expr), exceptErr (getBoolean r) = true →
      applyEQ (.boolLit b) r = .ret (some false) (some "Cannot compare boolean with non-boolean") ∧
      applyNQ (.boolLit b) r = .ret (some false) (some "Cannot compare boolean with non-boolean")) := by
  refine ⟨?_, ?_, ?_, ?_⟩
  · intro l r h1 h2 h3
    cases l <;> simp_all [applyEQ, applyNQ, getString, getNumber, getBoolean, exceptErr]
  · intro s r h
    cases r <;> simp_all [applyEQ, applyNQ, getString, exceptErr]
  · intro v r h
    cases r <;> simp_all [applyEQ, applyNQ, getString, getNumber, exceptErr]
  · intro b r h
    cases r <;> simp_all [applyEQ, applyNQ, getString, getNumber, getBoolean, exceptErr]

/-- Claim C2, witness for the amended theorem at concrete operands covering
the fallthrough part and all three type-error parts. -/
theorem eq_mismatch_amended_witness :
    applyEQ (.sliceStrLit []) (.boolLit true) = .ret (some false) none ∧
    applyNQ (.strLit "a") (.boolLit true) =
      .ret (some false) (some "Cannot compare string with non-string") ∧
    applyEQ (.numLit 3) (.strLit "a") =
      .ret (some false) (some "Cannot compare number with non-number") ∧
    applyNQ (.boolLit true) (.numLit 3) =
      .ret (some false) (some "Cannot compare boolean with non-boolean") :=
  ⟨(eq_mismatch_amended.1 (.sliceStrLit []) (.boolLit true) rfl rfl rfl).1,
   (eq_mismatch_amended.2.1 "a" (.boolLit true) rfl).2,
   (eq_mismatch_amended.2.2.1 3 (.strLit "a") rfl).1,
   (eq_mismatch_amended.2.2.2 true (.numLit 3) rfl).2⟩

/-- Claim C3, counterexample: the input holds a complete expression followed
by a non-end-of-input token, yet Parse returns the leading expression with no
error (in the code, `Parse` calls `parseExpr` and never checks for EOF; the
operator loop unscans any non-operator token and returns). -/
theorem parse_trailing_garbage_counterexample :
    ParseString "true true" = .ok (.boolLit true) := by decide

/-- Claim C3, amended: Parse never requires end-of-input.  Whenever the token
scanned after a complete expression is neither ILLEGAL nor a binary operator,
the operator loop returns the expression parsed so far with no error and with
that token unscanned, so the rest of the input is never read (proved for
every expression, parser state and fuel); a scanned ILLEGAL token is an
error.  The concrete instances show multi-token trailing garbage being
silently ignored, a trailing ILLEGAL character producing the ILLEGAL error,
and a trailing binary operator continuing the parse into an ordinary parse
error (not an ILLEGAL one) because no operand follows. -/
theorem parse_trailing_tokens_ignored :
    (∀ (fuel : Nat) (e : Expr) (st : PState) (op : Tok) (tx : String) (st2 : PState),
      scanWithMapping st = .tok op tx st2 → op ≠ .ILLEGAL → op.isOperator = false →
      parseF (fuel + 1) (.loop e st) = .ok e (unscan st2)) ∧
    (∀ (fuel : Nat) (e : Expr) (st : PState) (tx : String) (st2 : PState),
      scanWithMapping st = .tok .ILLEGAL tx st2 →
      parseF (fuel + 1) (.loop e st) = .err ("ILLEGAL " ++ tx)) ∧
    ParseString "true true false ^ (" = .ok (.boolLit true) ∧
    ParseString "true ^" = .err "ILLEGAL ^" ∧
    ParseString "true AND" = .err "Parsing error: lit=" := by
  refine ⟨?_, ?_, by decide, by decide, by decide⟩
  · intro fuel e st op tx st2 h hop hnotop
    simp [parseF, h, hop, hnotop]
  · intro fuel e st tx st2 h
    simp [parseF, h]

/-- Claim C3, witness: the two universal parts of the amended theorem applied
at concrete loop states (a trailing FALSE token is returned unread; a
trailing illegal character is the ILLEGAL error). -/
theorem parse_trailing_tokens_ignored_witness :
    parseF 3 (.loop (.boolLit true) ⟨[.rIdent "false"], .rEOF, false⟩)
      = .ok (.boolLit true) (unscan ⟨[], .rIdent "false", false⟩) ∧
    parseF 3 (.loop (.boolLit true) ⟨[.rCh '^'], .rEOF, false⟩)
      = .err ("ILLEGAL " ++ "^") :=
  ⟨parse_trailing_tokens_ignored.1 2 (.boolLit true) ⟨[.rIdent "false"], .rEOF, false⟩
      .FALSE "false" ⟨[], .rIdent "false", false⟩ (by decide) (by decide) (by decide),
   parse_trailing_tokens_ignored.2.1 2 (.boolLit true) ⟨[.rCh '^'], .rEOF, false⟩
      "^" ⟨[], .rCh '^', false⟩ (by decide)⟩

/-- Claim C4: operator precedence levels are OR=1, AND/XOR/NAND=2,
comparisons/membership/regex=3, parentheses bind tightest; consequently
"false OR true AND false" evaluates like "false OR (true AND false)" to
false, and "(false OR true) AND false" evaluates to false. -/
theorem precedence_and_examples :
    Tok.Precedence .OR = 1 ∧
    Tok.Precedence .AND = 2 ∧ Tok.Precedence .XOR = 2 ∧ Tok.Precedence .NAND = 2 ∧
    Tok.Precedence .EQ = 3 ∧ Tok.Precedence .NEQ = 3 ∧ Tok.Precedence .LT = 3 ∧
    Tok.Precedence .LTE = 3 ∧ Tok.Precedence .GT = 3 ∧ Tok.Precedence .GTE = 3 ∧
    Tok.Precedence .IN = 3 ∧ Tok.Precedence .NOTIN = 3 ∧ Tok.Precedence .EREG = 3 ∧
    Tok.Precedence .NEREG = 3 ∧ Tok.Precedence .INTERSECTS = 3 ∧ Tok.Precedence .HAS = 3 ∧
    evalString re0 "false OR true AND false" [] = some (.ret false none) ∧
    evalString re0 "false OR true AND false" [] =
      evalString re0 "false OR (true AND false)" [] ∧
    evalString re0 "(false OR true) AND false" [] = some (.ret false none) :=
  ⟨rfl, rfl, rfl, rfl, rfl, rfl, rfl, rfl, rfl, rfl, rfl, rfl, rfl, rfl, rfl, rfl,
   by decide, by decide, by decide⟩

/-- Claim C5: for a string (resp. number) literal on the left and a set
literal of the same element kind on the right, IN evaluates with no error to
exactly membership by equality, and NOT IN to its exact negation. -/
theorem in_notin_membership (a : String) (bs : List String) (x : Rat) (xs : List Rat) :
    applyIN (.strLit a) (.sliceStrLit bs) = .ret (some (decide (a ∈ bs))) none ∧
    applyNOTIN (.strLit a) (.sliceStrLit bs) = .ret (some (!decide (a ∈ bs))) none ∧
    applyIN (.numLit x) (.sliceNumLit xs) = .ret (some (decide (x ∈ xs))) none ∧
    applyNOTIN (.numLit x) (.sliceNumLit xs) = .ret (some (!decide (x ∈ xs))) none := by
  simp [applyIN, applyNOTIN, getString, getNumber, getSliceString, getSliceNumber,
    foundIn_eq_decide]

/-- Claim C7: a variable reference whose name is absent from the binding map
evaluates to the resolution error, never a crash and never a silent false
with nil error. -/
theorem missing_binding_resolution_error
    (re : String → String → Bool × Option String) (name : String) (args : Bindings)
    (h : List.lookup name args = none) :
    evaluateSubtree re (.varRef name) args =
      .ret (some falseExpr) (some ("argument: " ++ name ++ " not found")) ∧
    Evaluate re (.varRef name) args =
      .ret false (some ("argument: " ++ name ++ " not found")) := by
  constructor
  · simp [evaluateSubtree, h]
  · simp [Evaluate, evaluateSubtree, h]

/-- Claim C7, witness: the missing-binding theorem at a concrete name and the
empty binding map. -/
theorem missing_binding_resolution_error_witness :
    Evaluate re0 (.varRef "missing") [] = .ret false (some "argument: missing not found") :=
  (missing_binding_resolution_error re0 "missing" [] rfl).2

/-- Claim C8: parenthesization is transparent to evaluation — wrapping any
expression in a ParenExpr changes neither the boolean nor the error of the
recursive reduction or of the top-level evaluation. -/
theorem paren_transparent (re : String → String → Bool × Option String)
    (e : Expr) (args : Bindings) :
    evaluateSubtree re (.paren e) args = evaluateSubtree re e args ∧
    Evaluate re (.paren e) args = Evaluate re e args := by
  cases e <;> exact ⟨rfl, rfl⟩

/-- Claim C9: `Variables` returns the transitively referenced variable names
in first-encountered order with every later duplicate removed: it equals the
reference first-seen deduplication of the in-order name list, is
duplicate-free, and keeps exactly the referenced names. -/
theorem variables_first_seen_dedup (e : Expr) :
    Variables e = firstSeenDedup e.Args ∧
    (Variables e).Nodup ∧
    (∀ s : String, s ∈ Variables e ↔ s ∈ e.Args) := by
  have h : Variables e = firstSeenDedup e.Args := removeDuplicates_eq_firstSeenDedup e.Args
  refine ⟨h, ?_, ?_⟩
  · rw [h]; exact nodup_firstSeenDedup _
  · intro s; rw [h]; exact mem_firstSeenDedup s _

/-- Claim C10: evaluating a nil expression returns false with the nil-
expression error rather than crashing, both at the top level and for a nil
subtree reached during recursion (here: a binary node with nil left child). -/
theorem nil_expression_error (re : String → String → Bool × Option String)
    (args : Bindings) (op : Tok) (rhs : Expr) :
    Evaluate re .null args = .ret false (some "Provided expression is nil") ∧
    evaluateSubtree re .null args = .ret (some falseExpr) (some "Provided expression is nil") ∧
    Evaluate re (.binary op .null rhs) args = .ret false (some "Provided expression is nil") :=
  ⟨rfl, rfl, rfl⟩

/-- Claim C6: an array literal whose decode is empty is the documented parse
error; a mixed-kind literal with a string first element makes the unchecked
string cast panic (a crash, not the parse error the claim and spec demand); a
well-kinded literal parses. -/
theorem array_literal_empty_and_mixed :
    ParseString "[a, b]" = .err "Empty Slice not castable" ∧
    ParseString "[\"a\", 1]" = .crash ∧
    ParseString "[\"a\", \"b\"]" = .ok (.sliceStrLit ["a", "b"]) :=
  ⟨by decide, by decide, by decide⟩

end Conditions
